import Mathlib

/- Verification of the chest-xray-streamlit inference-and-explanation pipeline.

   The development shallowly embeds the two source files:
   - src/src/model_library.py : XRVModelLibrary.preprocess (grayscale, center crop
     to max(img.shape), resize to 224x224, linear intensity rescale);
   - src/app.py : main (precondition checks and trace of the Diagnose action,
     torch.topk class selection, CAM fusion step, per-slot forward passes,
     feedback record assembly).

   Images are total functions from (channel, row, column) coordinates to exact
   rational intensities, together with their shape.  Float division is embedded
   as an Option-valued operation whose none case stands for the IEEE NaN that
   0/0 produces, so the degenerate constant-image case is observable. -/

namespace ChestXray

/-- A tensor image of shape (channels, height, width); `data` is a total
function, read only at in-range coordinates. -/
structure Image where
  channels : ℕ
  height : ℕ
  width : ℕ
  data : ℕ → ℕ → ℕ → ℚ

/-- An image whose pixel values may be the float NaN, represented by `none`. -/
structure OImage where
  channels : ℕ
  height : ℕ
  width : ℕ
  data : ℕ → ℕ → ℕ → Option ℚ

/-- torchvision.transforms.Grayscale(num_output_channels=1): luminance reduction
with the rgb_to_grayscale weights 0.2989 R + 0.587 G + 0.114 B. -/
def grayscale (img : Image) : Image :=
  Image.mk 1 img.height img.width (fun _ i j =>
    (2989 / 10000) * img.data 0 i j + (587 / 1000) * img.data 1 i j
      + (114 / 1000) * img.data 2 i j)

/-- Python max(img.shape) for a tensor of shape (channels, height, width):
the maximum is taken over all three entries, including the channel count. -/
def maxShape (img : Image) : ℕ :=
  max img.channels (max img.height img.width)

/-- torchvision.transforms.CenterCrop(size) in the regime used by preprocess,
where size = max(img.shape) is at least both spatial dimensions: the image is
padded with fill value 0 by (size - dim) / 2 on the leading side (integer
division, remainder going to the trailing side) and the result has shape
size x size.  Pixels outside the shifted original extent are 0. -/
def centerCrop (size : ℕ) (img : Image) : Image :=
  Image.mk img.channels size size (fun c i j =>
    if (size - img.height) / 2 ≤ i ∧ i < (size - img.height) / 2 + img.height ∧
       (size - img.width) / 2 ≤ j ∧ j < (size - img.width) / 2 + img.width
    then img.data c (i - (size - img.height) / 2) (j - (size - img.width) / 2)
    else 0)

/-- Bilinear source coordinate with align_corners = false:
(pos + 0.5) * (inLen / outLen) - 0.5, clamped below at 0. -/
def srcIndex (outLen inLen pos : ℕ) : ℚ :=
  max (((pos : ℚ) + 1/2) * ((inLen : ℚ) / (outLen : ℚ)) - 1/2) 0

/-- The lower of the two source rows/columns blended for an output position. -/
def lowIndex (outLen inLen pos : ℕ) : ℕ :=
  (Int.floor (srcIndex outLen inLen pos)).toNat

/-- The upper blended source row/column, clamped to the last one. -/
def highIndex (outLen inLen pos : ℕ) : ℕ :=
  min (lowIndex outLen inLen pos + 1) (inLen - 1)

/-- The fractional blend weight toward the upper source row/column. -/
def fracIndex (outLen inLen pos : ℕ) : ℚ :=
  srcIndex outLen inLen pos - (lowIndex outLen inLen pos : ℚ)

/-- torchvision.transforms.Resize((outH, outW)) on a tensor: bilinear
interpolation with align_corners = false; source coordinates below 0 are
clamped to 0 and neighbour indices are clamped to the last row/column. -/
def resizeBilinear (outH outW : ℕ) (img : Image) : Image :=
  Image.mk img.channels outH outW (fun c i j =>
    (1 - fracIndex outH img.height i) *
      ((1 - fracIndex outW img.width j) *
          img.data c (lowIndex outH img.height i) (lowIndex outW img.width j) +
        fracIndex outW img.width j *
          img.data c (lowIndex outH img.height i) (highIndex outW img.width j)) +
    fracIndex outH img.height i *
      ((1 - fracIndex outW img.width j) *
          img.data c (highIndex outH img.height i) (lowIndex outW img.width j) +
        fracIndex outW img.width j *
          img.data c (highIndex outH img.height i) (highIndex outW img.width j)))

/-- All pixel values of an image, enumerated over its in-range coordinates. -/
def pixelList (img : Image) : List ℚ :=
  (List.range img.channels).flatMap (fun c =>
    (List.range img.height).flatMap (fun i =>
      (List.range img.width).map (fun j => img.data c i j)))

/-- Tensor.min() : the least element over all entries (the fold start
img.data 0 0 0 is itself an entry whenever the image is nonempty). -/
def imgMin (img : Image) : ℚ :=
  (pixelList img).foldl min (img.data 0 0 0)

/-- Tensor.max() : the greatest element over all entries. -/
def imgMax (img : Image) : ℚ :=
  (pixelList img).foldl max (img.data 0 0 0)

/-- Float division as the source performs it: a zero denominator yields NaN
(the numerator is 0 exactly in the degenerate rescale), embedded as none. -/
def divOrNaN (a b : ℚ) : Option ℚ :=
  if b = 0 then none else some (a / b)

/-- XRVModelLibrary.preprocess: grayscale, center crop to max(img.shape),
resize to (224, 224), then the linear rescale
2048 * (x - min) / (max - min) - 1024 of every pixel, where min and max are
the observed extremes of the transformed output.  Returns
(transformed_output, rescaled_output); the rescaled pixels are Option-valued
because the division is undefined (NaN) when max = min. -/
def preprocess (img : Image) : Image × OImage :=
  let transformed := resizeBilinear 224 224 (centerCrop (maxShape img) (grayscale img))
  let m := imgMin transformed
  let M := imgMax transformed
  (transformed,
    OImage.mk transformed.channels transformed.height transformed.width
      (fun c i j =>
        (divOrNaN (2048 * (transformed.data c i j - m)) (M - m)).map
          (fun q => q - 1024)))

/-- app.py: NUM_RESULTS = 5. -/
def NUM_RESULTS : ℕ := 5

/-- The comparison used by torch.topk(values, k) with sorted results on CPU:
higher score first, equal scores kept in ascending index order. -/
def topkRel (scores : List ℚ) (i j : ℕ) : Prop :=
  scores.getD j 0 < scores.getD i 0 ∨
    (scores.getD i 0 = scores.getD j 0 ∧ i ≤ j)

instance topkRelDecidable (scores : List ℚ) : DecidableRel (topkRel scores) := by
  intro i j
  unfold topkRel
  infer_instance

instance topkRelTotal (scores : List ℚ) : IsTotal ℕ (topkRel scores) := by
  constructor
  intro i j
  rcases lt_trichotomy (scores.getD i 0) (scores.getD j 0) with h | h | h
  · exact Or.inr (Or.inl h)
  · rcases Nat.le_total i j with hij | hij
    · exact Or.inl (Or.inr ⟨h, hij⟩)
    · exact Or.inr (Or.inr ⟨h.symm, hij⟩)
  · exact Or.inl (Or.inl h)

instance topkRelTrans (scores : List ℚ) : IsTrans ℕ (topkRel scores) := by
  constructor
  intro i j k hij hjk
  rcases hij with h1 | ⟨e1, l1⟩
  · rcases hjk with h2 | ⟨e2, _⟩
    · exact Or.inl (h2.trans h1)
    · exact Or.inl (e2 ▸ h1)
  · rcases hjk with h2 | ⟨e2, l2⟩
    · exact Or.inl (e1 ▸ h2)
    · exact Or.inr ⟨e1.trans e2, l1.trans l2⟩

/-- torch.topk(out.squeeze(0), k).indices: the indices of the k largest
scores, sorted by descending score with ties in ascending index order. -/
def topkIndices (scores : List ℚ) (k : ℕ) : List ℕ :=
  (List.insertionSort (topkRel scores) (List.range scores.length)).take k

/-- app.py lines 170-171: activation_maps[0] if len(activation_maps) == 1
else cam_extractor.fuse_cams(activation_maps). -/
def fuseStep {α : Type} (fuse : List α → α) (maps : List α) : α :=
  match maps with
  | [m] => m
  | _ => fuse maps

/-- One iteration of the result loop (app.py lines 156-184): a fresh forward
pass out = model(rescaled), class_ids = topk(out, NUM_RESULTS), and for slot i
the class id class_ids[i], the probability out[class_ids[i]] * 100 and the
score vector out that is passed to the CAM extractor. -/
def forwardSlot {α : Type} (model : α → List ℚ) (x : α) (i : ℕ) : ℕ × ℚ × List ℚ :=
  let out := model x
  let classIds := topkIndices out NUM_RESULTS
  let cid := classIds.getD i 0
  (cid, out.getD cid 0 * 100, out)

/-- The NUM_RESULTS result slots as app.py computes them, with one forward
pass per slot. -/
def perSlotResults {α : Type} (model : α → List ℚ) (x : α) : List (ℕ × ℚ × List ℚ) :=
  (List.range NUM_RESULTS).map (forwardSlot model x)

/-- Stated from the spec for comparison (design note on the repeated forward
pass): the same result slots computed from one single shared forward pass. -/
def sharedPassResults {α : Type} (model : α → List ℚ) (x : α) : List (ℕ × ℚ × List ℚ) :=
  let out := model x
  let classIds := topkIndices out NUM_RESULTS
  (List.range NUM_RESULTS).map (fun i =>
    let cid := classIds.getD i 0
    (cid, out.getD cid 0 * 100, out))

/-- Modelled from the spec: the Feedback class lives in src/feedback_utils.py,
which is not among the provided sources.  The spec describes a FeedbackRecord
as "an ordered mapping of field-name → value"; insert appends one field and
get_data returns the ordered mapping. -/
structure Feedback where
  entries : List (String × String)

/-- Modelled from the spec: a fresh Feedback() holds no entries. -/
def Feedback.empty : Feedback := Feedback.mk []

/-- Modelled from the spec: insert appends one field-name → value pair. -/
def Feedback.insert (f : Feedback) (key value : String) : Feedback :=
  Feedback.mk (f.entries ++ [(key, value)])

/-- Modelled from the spec: get_data returns the ordered mapping. -/
def Feedback.get_data (f : Feedback) : List (String × String) :=
  f.entries

/-- Python str of a bool: "True" or "False". -/
def pyStrBool (b : Bool) : String :=
  if b then "True" else "False"

/-- Python str of an optional text: str(None) = "None", str(s) = s. -/
def pyStrOptStr : Option String → String
  | none => "None"
  | some s => s

/-- app.py lines 192-195: feedback = Feedback(); for i in range(NUM_RESULTS):
insert result{i}_confirm -> str(feedback_ok[i]) and
result{i}_comment -> str(feedback_comment[i]). -/
def emitRecord (ok : List Bool) (comment : List (Option String)) : Feedback :=
  (List.range NUM_RESULTS).foldl
    (fun f i =>
      (f.insert ("result" ++ toString i ++ "_confirm") (pyStrBool (ok.getD i false))).insert
        ("result" ++ toString i ++ "_comment") (pyStrOptStr (comment.getD i none)))
    Feedback.empty

/-- The submission as reached through the form: every comment slot has been
assigned the text_area value (a string, empty by default) before the
form_submit_button line executes, so no slot still holds the initial None. -/
def diagnoseEmit (ok : List Bool) (texts : List String) : Feedback :=
  emitRecord ok (texts.map some)

/-- Observable events of one run of app.py main, in program order. -/
inductive Event where
  | modelLoad
  | checkImage
  | checkModel
  | checkMethod
  | errImage
  | errModel
  | errMethod
  | camInit
  | preprocessEv
  | forwardPass
deriving DecidableEq

/-- The event trace of one run of app.py main: the model load (line 110) runs
whenever a model source is selected, before the Diagnose branch; inside the
Diagnose branch the three precondition checks (lines 127-133) run in order,
an error event replaces the rest on failure, and only past all three does the
CAM initialisation, the preprocess and the NUM_RESULTS forward passes run. -/
def mainTrace (imgPresent modelSourceSel camSel diagnosePressed : Bool) : List Event :=
  (if modelSourceSel then [Event.modelLoad] else []) ++
  (if diagnosePressed then
    Event.checkImage ::
      (if imgPresent = false then [Event.errImage]
       else Event.checkModel ::
         (if modelSourceSel = false then [Event.errModel]
          else Event.checkMethod ::
            (if camSel = false then [Event.errMethod]
             else Event.camInit :: Event.preprocessEv ::
               (List.range NUM_RESULTS).flatMap (fun _ => [Event.forwardPass]))))
   else [])

/-- A constant-intensity 4 x 4 colour image (every pixel value 1). -/
def imgConst : Image := Image.mk 3 4 4 (fun _ _ _ => 1)

/-- A 224 x 224 colour image that is 0 at pixel (0, 0) and 1 elsewhere. -/
def imgStep : Image := Image.mk 3 224 224 (fun _ i j => if i = 0 ∧ j = 0 then 0 else 1)

/-- A non-square constant colour image of spatial size 449 x 450. -/
def imgWide : Image := Image.mk 3 449 450 (fun _ _ _ => 1)

/-- A tiny 1 x 1 colour image (every pixel value 1). -/
def imgTiny : Image := Image.mk 3 1 1 (fun _ _ _ => 1)

/-- A small non-square 3 x 5 colour image (every pixel value 1). -/
def imgRect : Image := Image.mk 3 3 5 (fun _ _ _ => 1)

/-- A demonstration score vector with six classes. -/
def demoScores : List ℚ :=
  [mkRat 1 10, mkRat 9 10, mkRat 9 10, mkRat 3 10, mkRat 1 2, mkRat 1 4]

/-- A deterministic demonstration model that always returns demoScores. -/
def demoModel : ℕ → List ℚ := fun _ => demoScores

lemma foldl_min_le_init (l : List ℚ) (a : ℚ) : l.foldl min a ≤ a := by
  induction l generalizing a with
  | nil => exact le_refl a
  | cons b l ih => exact le_trans (ih (min a b)) (min_le_left a b)

lemma foldl_min_le_mem {l : List ℚ} {x : ℚ} (hx : x ∈ l) (a : ℚ) : l.foldl min a ≤ x := by
  induction l generalizing a with
  | nil => cases hx
  | cons b l ih =>
    rcases List.mem_cons.mp hx with rfl | hx'
    · exact le_trans (foldl_min_le_init l (min a x)) (min_le_right a x)
    · exact ih hx' (min a b)

lemma init_le_foldl_max (l : List ℚ) (a : ℚ) : a ≤ l.foldl max a := by
  induction l generalizing a with
  | nil => exact le_refl a
  | cons b l ih => exact le_trans (le_max_left a b) (ih (max a b))

lemma mem_le_foldl_max {l : List ℚ} {x : ℚ} (hx : x ∈ l) (a : ℚ) : x ≤ l.foldl max a := by
  induction l generalizing a with
  | nil => cases hx
  | cons b l ih =>
    rcases List.mem_cons.mp hx with rfl | hx'
    · exact le_trans (le_max_right a x) (init_le_foldl_max l (max a x))
    · exact ih hx' (max a b)

lemma foldl_min_const {l : List ℚ} {v : ℚ} (h : ∀ x ∈ l, x = v) : l.foldl min v = v := by
  induction l with
  | nil => rfl
  | cons b l ih =>
    have hb : b = v := h b (List.mem_cons_self b l)
    subst hb
    simp only [List.foldl_cons, min_self]
    exact ih (fun x hx => h x (List.mem_cons_of_mem _ hx))

lemma foldl_max_const {l : List ℚ} {v : ℚ} (h : ∀ x ∈ l, x = v) : l.foldl max v = v := by
  induction l with
  | nil => rfl
  | cons b l ih =>
    have hb : b = v := h b (List.mem_cons_self b l)
    subst hb
    simp only [List.foldl_cons, max_self]
    exact ih (fun x hx => h x (List.mem_cons_of_mem _ hx))

lemma data_mem_pixelList {img : Image} {c i j : ℕ} (hc : c < img.channels)
    (hi : i < img.height) (hj : j < img.width) : img.data c i j ∈ pixelList img := by
  unfold pixelList
  refine List.mem_flatMap.mpr ⟨c, List.mem_range.mpr hc, ?_⟩
  refine List.mem_flatMap.mpr ⟨i, List.mem_range.mpr hi, ?_⟩
  exact List.mem_map.mpr ⟨j, List.mem_range.mpr hj, rfl⟩

lemma pixelList_forall {img : Image} {v : ℚ}
    (h : ∀ c i j, c < img.channels → i < img.height → j < img.width → img.data c i j = v) :
    ∀ x ∈ pixelList img, x = v := by
  intro x hx
  unfold pixelList at hx
  rcases List.mem_flatMap.mp hx with ⟨c, hc, hx1⟩
  rcases List.mem_flatMap.mp hx1 with ⟨i, hi, hx2⟩
  rcases List.mem_map.mp hx2 with ⟨j, hj, rfl⟩
  exact h c i j (List.mem_range.mp hc) (List.mem_range.mp hi) (List.mem_range.mp hj)

lemma imgMin_le {img : Image} {c i j : ℕ} (hc : c < img.channels)
    (hi : i < img.height) (hj : j < img.width) : imgMin img ≤ img.data c i j :=
  foldl_min_le_mem (data_mem_pixelList hc hi hj) _

lemma le_imgMax {img : Image} {c i j : ℕ} (hc : c < img.channels)
    (hi : i < img.height) (hj : j < img.width) : img.data c i j ≤ imgMax img :=
  mem_le_foldl_max (data_mem_pixelList hc hi hj) _

lemma srcIndex_lt (outLen inLen pos : ℕ) (hpos : pos < outLen) (hin : 0 < inLen) :
    srcIndex outLen inLen pos < (inLen : ℚ) := by
  unfold srcIndex
  have h0 : (0 : ℚ) < (inLen : ℚ) := by exact_mod_cast hin
  have hout : (0 : ℚ) < (outLen : ℚ) := by exact_mod_cast Nat.zero_lt_of_lt hpos
  have h1 : ((pos : ℚ) + 1/2) < (outLen : ℚ) := by
    have hp1 : ((pos : ℚ)) + 1 ≤ (outLen : ℚ) := by exact_mod_cast hpos
    linarith
  have h2 : (0 : ℚ) < (inLen : ℚ) / (outLen : ℚ) := div_pos h0 hout
  have h3 : ((pos : ℚ) + 1/2) * ((inLen : ℚ) / (outLen : ℚ)) <
      (outLen : ℚ) * ((inLen : ℚ) / (outLen : ℚ)) := mul_lt_mul_of_pos_right h1 h2
  have h4 : (outLen : ℚ) * ((inLen : ℚ) / (outLen : ℚ)) = (inLen : ℚ) := by
    field_simp
  exact max_lt (by linarith) h0

lemma lowIndex_lt (outLen inLen pos : ℕ) (hpos : pos < outLen) (hin : 0 < inLen) :
    lowIndex outLen inLen pos < inLen := by
  unfold lowIndex
  have h := srcIndex_lt outLen inLen pos hpos hin
  have hnn : (0 : ℚ) ≤ srcIndex outLen inLen pos := le_max_right _ 0
  have hfl : Int.floor (srcIndex outLen inLen pos) < (inLen : ℤ) := by
    rw [Int.floor_lt]
    exact_mod_cast h
  have h0 : 0 ≤ Int.floor (srcIndex outLen inLen pos) := Int.floor_nonneg.mpr hnn
  omega

lemma highIndex_lt (outLen inLen pos : ℕ) (hin : 0 < inLen) :
    highIndex outLen inLen pos < inLen := by
  unfold highIndex
  omega

lemma resizeBilinear_const (outH outW : ℕ) (img : Image) (v : ℚ) (c i j : ℕ)
    (hh : 0 < img.height) (hw : 0 < img.width) (hi : i < outH) (hj : j < outW)
    (hdata : ∀ y x, y < img.height → x < img.width → img.data c y x = v) :
    (resizeBilinear outH outW img).data c i j = v := by
  unfold resizeBilinear
  dsimp only
  rw [hdata _ _ (lowIndex_lt _ _ _ hi hh) (lowIndex_lt _ _ _ hj hw),
      hdata _ _ (lowIndex_lt _ _ _ hi hh) (highIndex_lt _ _ _ hw),
      hdata _ _ (highIndex_lt _ _ _ hh) (lowIndex_lt _ _ _ hj hw),
      hdata _ _ (highIndex_lt _ _ _ hh) (highIndex_lt _ _ _ hw)]
  ring

lemma preprocess_fst (img : Image) :
    (preprocess img).1 = resizeBilinear 224 224 (centerCrop (maxShape img) (grayscale img)) :=
  rfl

lemma preprocess_snd_data (img : Image) (c i j : ℕ) :
    (preprocess img).2.data c i j =
      (divOrNaN (2048 * ((preprocess img).1.data c i j - imgMin (preprocess img).1))
        (imgMax (preprocess img).1 - imgMin (preprocess img).1)).map (fun q => q - 1024) :=
  rfl

lemma srcIdx450_223 : srcIndex 224 450 223 = 100463/224 := by
  unfold srcIndex
  rw [max_eq_left] <;> push_cast <;> norm_num

lemma lowIdx450_223 : lowIndex 224 450 223 = 448 := by
  unfold lowIndex
  rw [srcIdx450_223]
  norm_num
  decide

lemma highIdx450_223 : highIndex 224 450 223 = 449 := by
  unfold highIndex
  rw [lowIdx450_223]
  decide

lemma fracIdx450_223 : fracIndex 224 450 223 = 111/224 := by
  unfold fracIndex
  rw [srcIdx450_223, lowIdx450_223]
  norm_num

lemma srcIdx450_0 : srcIndex 224 450 0 = 113/224 := by
  unfold srcIndex
  rw [max_eq_left] <;> push_cast <;> norm_num

lemma lowIdx450_0 : lowIndex 224 450 0 = 0 := by
  unfold lowIndex
  rw [srcIdx450_0]
  norm_num

lemma highIdx450_0 : highIndex 224 450 0 = 1 := by
  unfold highIndex
  rw [lowIdx450_0]
  decide

lemma fracIdx450_0 : fracIndex 224 450 0 = 113/224 := by
  unfold fracIndex
  rw [srcIdx450_0, lowIdx450_0]
  norm_num

lemma srcIdx224_0 : srcIndex 224 224 0 = 0 := by
  unfold srcIndex
  rw [max_eq_right] <;> push_cast <;> norm_num

lemma lowIdx224_0 : lowIndex 224 224 0 = 0 := by
  unfold lowIndex
  rw [srcIdx224_0]
  norm_num

lemma highIdx224_0 : highIndex 224 224 0 = 1 := by
  unfold highIndex
  rw [lowIdx224_0]
  decide

lemma fracIdx224_0 : fracIndex 224 224 0 = 0 := by
  unfold fracIndex
  rw [srcIdx224_0, lowIdx224_0]
  norm_num

lemma srcIdx224_1 : srcIndex 224 224 1 = 1 := by
  unfold srcIndex
  rw [max_eq_left] <;> push_cast <;> norm_num

lemma lowIdx224_1 : lowIndex 224 224 1 = 1 := by
  unfold lowIndex
  rw [srcIdx224_1]
  norm_num

lemma highIdx224_1 : highIndex 224 224 1 = 2 := by
  unfold highIndex
  rw [lowIdx224_1]
  decide

lemma fracIdx224_1 : fracIndex 224 224 1 = 0 := by
  unfold fracIndex
  rw [srcIdx224_1, lowIdx224_1]
  norm_num

lemma srcIdx3_0 : srcIndex 224 3 0 = 0 := by
  unfold srcIndex
  rw [max_eq_right] <;> push_cast <;> norm_num

lemma lowIdx3_0 : lowIndex 224 3 0 = 0 := by
  unfold lowIndex
  rw [srcIdx3_0]
  norm_num

lemma highIdx3_0 : highIndex 224 3 0 = 1 := by
  unfold highIndex
  rw [lowIdx3_0]
  decide

lemma fracIdx3_0 : fracIndex 224 3 0 = 0 := by
  unfold fracIndex
  rw [srcIdx3_0, lowIdx3_0]
  norm_num

lemma imgWide_pixel_bottom :
    (preprocess imgWide).1.data 0 223 0 = 113/224 * (9999/10000) := by
  rw [preprocess_fst]
  unfold resizeBilinear
  dsimp only
  rw [show (centerCrop (maxShape imgWide) (grayscale imgWide)).height = 450 from rfl,
      show (centerCrop (maxShape imgWide) (grayscale imgWide)).width = 450 from rfl,
      lowIdx450_223, highIdx450_223, fracIdx450_223, lowIdx450_0, highIdx450_0, fracIdx450_0]
  have hc1 : (centerCrop (maxShape imgWide) (grayscale imgWide)).data 0 448 0 = 9999/10000 := by
    show (if (450 - 449) / 2 ≤ 448 ∧ 448 < (450 - 449) / 2 + 449 ∧
            (450 - 450) / 2 ≤ 0 ∧ 0 < (450 - 450) / 2 + 450
          then (grayscale imgWide).data 0 (448 - (450 - 449) / 2) (0 - (450 - 450) / 2)
          else 0) = 9999/10000
    rw [if_pos (by omega)]
    show (2989/10000) * (1:ℚ) + (587/1000) * 1 + (114/1000) * 1 = 9999/10000
    norm_num
  have hc2 : (centerCrop (maxShape imgWide) (grayscale imgWide)).data 0 448 1 = 9999/10000 := by
    show (if (450 - 449) / 2 ≤ 448 ∧ 448 < (450 - 449) / 2 + 449 ∧
            (450 - 450) / 2 ≤ 1 ∧ 1 < (450 - 450) / 2 + 450
          then (grayscale imgWide).data 0 (448 - (450 - 449) / 2) (1 - (450 - 450) / 2)
          else 0) = 9999/10000
    rw [if_pos (by omega)]
    show (2989/10000) * (1:ℚ) + (587/1000) * 1 + (114/1000) * 1 = 9999/10000
    norm_num
  have hc3 : (centerCrop (maxShape imgWide) (grayscale imgWide)).data 0 449 0 = 0 := by
    show (if (450 - 449) / 2 ≤ 449 ∧ 449 < (450 - 449) / 2 + 449 ∧
            (450 - 450) / 2 ≤ 0 ∧ 0 < (450 - 450) / 2 + 450
          then (grayscale imgWide).data 0 (449 - (450 - 449) / 2) (0 - (450 - 450) / 2)
          else 0) = 0
    rw [if_neg (by omega)]
  have hc4 : (centerCrop (maxShape imgWide) (grayscale imgWide)).data 0 449 1 = 0 := by
    show (if (450 - 449) / 2 ≤ 449 ∧ 449 < (450 - 449) / 2 + 449 ∧
            (450 - 450) / 2 ≤ 1 ∧ 1 < (450 - 450) / 2 + 450
          then (grayscale imgWide).data 0 (449 - (450 - 449) / 2) (1 - (450 - 450) / 2)
          else 0) = 0
    rw [if_neg (by omega)]
  rw [hc1, hc2, hc3, hc4]
  ring

lemma imgWide_pixel_top :
    (preprocess imgWide).1.data 0 0 0 = 9999/10000 := by
  rw [preprocess_fst]
  unfold resizeBilinear
  dsimp only
  rw [show (centerCrop (maxShape imgWide) (grayscale imgWide)).height = 450 from rfl,
      show (centerCrop (maxShape imgWide) (grayscale imgWide)).width = 450 from rfl,
      lowIdx450_0, highIdx450_0, fracIdx450_0]
  have hc1 : (centerCrop (maxShape imgWide) (grayscale imgWide)).data 0 0 0 = 9999/10000 := by
    show (if (450 - 449) / 2 ≤ 0 ∧ 0 < (450 - 449) / 2 + 449 ∧
            (450 - 450) / 2 ≤ 0 ∧ 0 < (450 - 450) / 2 + 450
          then (grayscale imgWide).data 0 (0 - (450 - 449) / 2) (0 - (450 - 450) / 2)
          else 0) = 9999/10000
    rw [if_pos (by omega)]
    show (2989/10000) * (1:ℚ) + (587/1000) * 1 + (114/1000) * 1 = 9999/10000
    norm_num
  have hc2 : (centerCrop (maxShape imgWide) (grayscale imgWide)).data 0 0 1 = 9999/10000 := by
    show (if (450 - 449) / 2 ≤ 0 ∧ 0 < (450 - 449) / 2 + 449 ∧
            (450 - 450) / 2 ≤ 1 ∧ 1 < (450 - 450) / 2 + 450
          then (grayscale imgWide).data 0 (0 - (450 - 449) / 2) (1 - (450 - 450) / 2)
          else 0) = 9999/10000
    rw [if_pos (by omega)]
    show (2989/10000) * (1:ℚ) + (587/1000) * 1 + (114/1000) * 1 = 9999/10000
    norm_num
  have hc3 : (centerCrop (maxShape imgWide) (grayscale imgWide)).data 0 1 0 = 9999/10000 := by
    show (if (450 - 449) / 2 ≤ 1 ∧ 1 < (450 - 449) / 2 + 449 ∧
            (450 - 450) / 2 ≤ 0 ∧ 0 < (450 - 450) / 2 + 450
          then (grayscale imgWide).data 0 (1 - (450 - 449) / 2) (0 - (450 - 450) / 2)
          else 0) = 9999/10000
    rw [if_pos (by omega)]
    show (2989/10000) * (1:ℚ) + (587/1000) * 1 + (114/1000) * 1 = 9999/10000
    norm_num
  have hc4 : (centerCrop (maxShape imgWide) (grayscale imgWide)).data 0 1 1 = 9999/10000 := by
    show (if (450 - 449) / 2 ≤ 1 ∧ 1 < (450 - 449) / 2 + 449 ∧
            (450 - 450) / 2 ≤ 1 ∧ 1 < (450 - 450) / 2 + 450
          then (grayscale imgWide).data 0 (1 - (450 - 449) / 2) (1 - (450 - 450) / 2)
          else 0) = 9999/10000
    rw [if_pos (by omega)]
    show (2989/10000) * (1:ℚ) + (587/1000) * 1 + (114/1000) * 1 = 9999/10000
    norm_num
  rw [hc1, hc2, hc3, hc4]
  ring

lemma imgStep_pixel00 : (preprocess imgStep).1.data 0 0 0 = 0 := by
  rw [preprocess_fst]
  unfold resizeBilinear
  dsimp only
  rw [show (centerCrop (maxShape imgStep) (grayscale imgStep)).height = 224 from rfl,
      show (centerCrop (maxShape imgStep) (grayscale imgStep)).width = 224 from rfl,
      lowIdx224_0, highIdx224_0, fracIdx224_0]
  have h00 : (centerCrop (maxShape imgStep) (grayscale imgStep)).data 0 0 0 = 0 := by
    show (if (224 - 224) / 2 ≤ 0 ∧ 0 < (224 - 224) / 2 + 224 ∧
            (224 - 224) / 2 ≤ 0 ∧ 0 < (224 - 224) / 2 + 224
          then (grayscale imgStep).data 0 (0 - (224 - 224) / 2) (0 - (224 - 224) / 2)
          else 0) = 0
    rw [if_pos (by omega)]
    show (2989/10000) * (0:ℚ) + (587/1000) * 0 + (114/1000) * 0 = 0
    norm_num
  rw [h00]
  ring

lemma imgStep_pixel01 : (preprocess imgStep).1.data 0 0 1 = 9999/10000 := by
  rw [preprocess_fst]
  unfold resizeBilinear
  dsimp only
  rw [show (centerCrop (maxShape imgStep) (grayscale imgStep)).height = 224 from rfl,
      show (centerCrop (maxShape imgStep) (grayscale imgStep)).width = 224 from rfl,
      lowIdx224_0, highIdx224_0, fracIdx224_0, lowIdx224_1, highIdx224_1, fracIdx224_1]
  have h01 : (centerCrop (maxShape imgStep) (grayscale imgStep)).data 0 0 1 = 9999/10000 := by
    show (if (224 - 224) / 2 ≤ 0 ∧ 0 < (224 - 224) / 2 + 224 ∧
            (224 - 224) / 2 ≤ 1 ∧ 1 < (224 - 224) / 2 + 224
          then (grayscale imgStep).data 0 (0 - (224 - 224) / 2) (1 - (224 - 224) / 2)
          else 0) = 9999/10000
    rw [if_pos (by omega)]
    show (2989/10000) * (1:ℚ) + (587/1000) * 1 + (114/1000) * 1 = 9999/10000
    norm_num
  rw [h01]
  ring

lemma imgTiny_pixel00 : (preprocess imgTiny).1.data 0 0 0 = 0 := by
  rw [preprocess_fst]
  unfold resizeBilinear
  dsimp only
  rw [show (centerCrop (maxShape imgTiny) (grayscale imgTiny)).height = 3 from rfl,
      show (centerCrop (maxShape imgTiny) (grayscale imgTiny)).width = 3 from rfl,
      lowIdx3_0, highIdx3_0, fracIdx3_0]
  have h00 : (centerCrop (maxShape imgTiny) (grayscale imgTiny)).data 0 0 0 = 0 := by
    show (if (3 - 1) / 2 ≤ 0 ∧ 0 < (3 - 1) / 2 + 1 ∧ (3 - 1) / 2 ≤ 0 ∧ 0 < (3 - 1) / 2 + 1
          then (grayscale imgTiny).data 0 (0 - (3 - 1) / 2) (0 - (3 - 1) / 2)
          else 0) = 0
    rw [if_neg (by omega)]
  rw [h00]
  ring

/-- Claim C7: for every input image, the two outputs of preprocess have a
single channel, identical spatial shape and the fixed size 224 x 224. -/
theorem preprocess_output_shapes (img : Image) :
    (preprocess img).1.channels = 1 ∧ (preprocess img).1.height = 224 ∧
    (preprocess img).1.width = 224 ∧ (preprocess img).2.channels = 1 ∧
    (preprocess img).2.height = 224 ∧ (preprocess img).2.width = 224 :=
  ⟨rfl, rfl, rfl, rfl, rfl, rfl⟩

/-- Claim C1 (code bug): on the constant-intensity image every pixel of the
rescaled preprocess output is the undefined 0/0 division (the float NaN,
embedded as none); the code does not map the pixel to the window midpoint
and does not raise a documented error. -/
theorem preprocess_constant_intensity_nan (c i j : ℕ) :
    (preprocess imgConst).2.data c i j = none := by
  have hcrop : ∀ c' y x, y < 4 → x < 4 →
      (centerCrop (maxShape imgConst) (grayscale imgConst)).data c' y x = 9999/10000 := by
    intro c' y x hy hx
    show (if (4 - 4) / 2 ≤ y ∧ y < (4 - 4) / 2 + 4 ∧ (4 - 4) / 2 ≤ x ∧ x < (4 - 4) / 2 + 4
          then (grayscale imgConst).data c' (y - (4 - 4) / 2) (x - (4 - 4) / 2)
          else 0) = 9999/10000
    rw [if_pos (by omega)]
    show (2989/10000) * (1:ℚ) + (587/1000) * 1 + (114/1000) * 1 = 9999/10000
    norm_num
  have ht : ∀ y x, y < 224 → x < 224 →
      (resizeBilinear 224 224 (centerCrop (maxShape imgConst) (grayscale imgConst))).data 0 y x
        = 9999/10000 := by
    intro y x hy hx
    exact resizeBilinear_const 224 224 _ _ 0 y x (by decide) (by decide) hy hx
      (fun y' x' hy' hx' => hcrop 0 y' x' hy' hx')
  have hall : ∀ q ∈ pixelList (preprocess imgConst).1, q = 9999/10000 := by
    apply pixelList_forall
    intro c' y x hc' hy hx
    have hc0 : c' = 0 := Nat.lt_one_iff.mp hc'
    subst hc0
    exact ht y x hy hx
  have h000 : (preprocess imgConst).1.data 0 0 0 = 9999/10000 := ht 0 0 (by omega) (by omega)
  have hmin : imgMin (preprocess imgConst).1 = 9999/10000 := by
    unfold imgMin
    rw [h000]
    exact foldl_min_const hall
  have hmax : imgMax (preprocess imgConst).1 = 9999/10000 := by
    unfold imgMax
    rw [h000]
    exact foldl_max_const hall
  rw [preprocess_snd_data, hmin, hmax, sub_self]
  unfold divOrNaN
  rw [if_pos rfl]
  rfl

/-- Claim C5 counterexample: preprocess crops to a square of side
max(img.shape), the maximum over all three tensor dimensions including the
channel count; on a 1 x 1 colour image that side is 3, not
max(height, width) = 1, and the padding it introduces is observable: the
constant-1 image comes out with a zero top-left pixel. -/
theorem cropSide_counterexample :
    maxShape imgTiny ≠ max imgTiny.height imgTiny.width ∧
    (preprocess imgTiny).1.data 0 0 0 = 0 ∧ imgTiny.data 0 0 0 = 1 :=
  ⟨by decide, imgTiny_pixel00, rfl⟩

/-- Claim C5 (amended): for every 3-channel image whose larger spatial
dimension is at least 3, the crop side max(img.shape) used by preprocess
equals max(height, width). -/
theorem cropSide_eq_max_spatial (img : Image) (hc : img.channels = 3)
    (h3 : 3 ≤ max img.height img.width) :
    maxShape img = max img.height img.width := by
  unfold maxShape
  rw [hc]
  exact max_eq_right h3

/-- Witness for cropSide_eq_max_spatial at the 3 x 5 image. -/
theorem cropSide_eq_max_spatial_witness :
    maxShape imgRect = max imgRect.height imgRect.width :=
  cropSide_eq_max_spatial imgRect rfl (by decide)

lemma imgStep_nondegenerate :
    imgMin (preprocess imgStep).1 < imgMax (preprocess imgStep).1 := by
  have ha : imgMin (preprocess imgStep).1 ≤ (0:ℚ) := by
    have h := @imgMin_le (preprocess imgStep).1 0 0 0 (by decide) (by decide) (by decide)
    rw [imgStep_pixel00] at h
    exact h
  have hb : (9999/10000 : ℚ) ≤ imgMax (preprocess imgStep).1 := by
    have h := @le_imgMax (preprocess imgStep).1 0 0 1 (by decide) (by decide) (by decide)
    rw [imgStep_pixel01] at h
    exact h
  calc imgMin (preprocess imgStep).1 ≤ 0 := ha
    _ < 9999/10000 := by norm_num
    _ ≤ imgMax (preprocess imgStep).1 := hb

/-- Claim C6: for every image whose transformed output is non-degenerate
(observed min strictly below observed max), every in-range pixel of the
rescaled output is a real value inside the window from -1024 to 1024, a pixel
attaining the observed minimum maps to -1024 and one attaining the observed
maximum maps to 1024. -/
theorem preprocess_rescale_window (img : Image) (c i j : ℕ)
    (hc : c < (preprocess img).1.channels) (hi : i < (preprocess img).1.height)
    (hj : j < (preprocess img).1.width)
    (hnd : imgMin (preprocess img).1 < imgMax (preprocess img).1) :
    ∃ y, (preprocess img).2.data c i j = some y ∧ -1024 ≤ y ∧ y ≤ 1024 ∧
      ((preprocess img).1.data c i j = imgMin (preprocess img).1 → y = -1024) ∧
      ((preprocess img).1.data c i j = imgMax (preprocess img).1 → y = 1024) := by
  have hx1 : imgMin (preprocess img).1 ≤ (preprocess img).1.data c i j := imgMin_le hc hi hj
  have hx2 : (preprocess img).1.data c i j ≤ imgMax (preprocess img).1 := le_imgMax hc hi hj
  have hpos : (0:ℚ) < imgMax (preprocess img).1 - imgMin (preprocess img).1 := by linarith
  have hne : imgMax (preprocess img).1 - imgMin (preprocess img).1 ≠ 0 := ne_of_gt hpos
  refine ⟨2048 * ((preprocess img).1.data c i j - imgMin (preprocess img).1) /
      (imgMax (preprocess img).1 - imgMin (preprocess img).1) - 1024, ?_, ?_, ?_, ?_, ?_⟩
  · rw [preprocess_snd_data]
    unfold divOrNaN
    rw [if_neg hne]
    rfl
  · have h0 : (0:ℚ) ≤ 2048 * ((preprocess img).1.data c i j - imgMin (preprocess img).1) /
        (imgMax (preprocess img).1 - imgMin (preprocess img).1) :=
      div_nonneg (by linarith) (le_of_lt hpos)
    linarith
  · have hle : 2048 * ((preprocess img).1.data c i j - imgMin (preprocess img).1) /
        (imgMax (preprocess img).1 - imgMin (preprocess img).1) ≤ 2048 := by
      rw [div_le_iff hpos]
      linarith
    linarith
  · intro hxm
    rw [hxm, sub_self, mul_zero, zero_div]
    norm_num
  · intro hxM
    rw [hxM, mul_div_assoc, div_self hne, mul_one]
    norm_num

/-- Witness for preprocess_rescale_window at the step image. -/
theorem preprocess_rescale_window_witness :
    ∃ y, (preprocess imgStep).2.data 0 0 0 = some y ∧ -1024 ≤ y ∧ y ≤ 1024 ∧
      ((preprocess imgStep).1.data 0 0 0 = imgMin (preprocess imgStep).1 → y = -1024) ∧
      ((preprocess imgStep).1.data 0 0 0 = imgMax (preprocess imgStep).1 → y = 1024) :=
  preprocess_rescale_window imgStep 0 0 0 (by decide) (by decide) (by decide)
    imgStep_nondegenerate

/-- Claim C10 counterexample: on the non-square 449 x 450 constant image
(both spatial dimensions at least 3) neither border row of the transformed
output along the originally shorter axis is zero: the top pad band is empty
because (450 - 449) / 2 = 0, and the bottom output row is a bilinear blend
of the zero pad row with interior pixels, hence nonzero. -/
theorem resize_border_blend_counterexample :
    imgWide.height < imgWide.width ∧
    (preprocess imgWide).1.data 0 223 0 ≠ 0 ∧
    (preprocess imgWide).1.data 0 0 0 ≠ 0 := by
  refine ⟨by decide, ?_, ?_⟩
  · rw [imgWide_pixel_bottom]
    norm_num
  · rw [imgWide_pixel_top]
    norm_num

/-- Claim C10 (amended): for every non-square 3-channel image with both
spatial dimensions at least 3, preprocess resolves the oversized center crop
by zero padding, not clamping and not an error: inside the shifted original
extent the cropped square reproduces the grayscale pixels, outside it every
pixel is 0, and the trailing pad row (resp. column) along the originally
shorter axis is entirely zero; the zero border need not survive the later
bilinear resize. -/
theorem centerCrop_zero_pad (img : Image) (hc : img.channels = 3)
    (h3 : 3 ≤ img.height) (w3 : 3 ≤ img.width) (hne : img.height ≠ img.width) :
    maxShape img = max img.height img.width ∧
    (∀ c i j,
      ((maxShape img - img.height) / 2 ≤ i ∧ i < (maxShape img - img.height) / 2 + img.height ∧
       (maxShape img - img.width) / 2 ≤ j ∧ j < (maxShape img - img.width) / 2 + img.width) →
      (centerCrop (maxShape img) (grayscale img)).data c i j =
        (grayscale img).data c (i - (maxShape img - img.height) / 2)
          (j - (maxShape img - img.width) / 2)) ∧
    (∀ c i j,
      ¬((maxShape img - img.height) / 2 ≤ i ∧ i < (maxShape img - img.height) / 2 + img.height ∧
        (maxShape img - img.width) / 2 ≤ j ∧ j < (maxShape img - img.width) / 2 + img.width) →
      (centerCrop (maxShape img) (grayscale img)).data c i j = 0) ∧
    (img.height < img.width →
      ∀ c j, (centerCrop (maxShape img) (grayscale img)).data c (maxShape img - 1) j = 0) ∧
    (img.width < img.height →
      ∀ c i, (centerCrop (maxShape img) (grayscale img)).data c i (maxShape img - 1) = 0) := by
  have hs : maxShape img = max img.height img.width := by
    unfold maxShape
    rw [hc]
    exact max_eq_right (by omega)
  have hin : ∀ c i j,
      ((maxShape img - img.height) / 2 ≤ i ∧ i < (maxShape img - img.height) / 2 + img.height ∧
       (maxShape img - img.width) / 2 ≤ j ∧ j < (maxShape img - img.width) / 2 + img.width) →
      (centerCrop (maxShape img) (grayscale img)).data c i j =
        (grayscale img).data c (i - (maxShape img - img.height) / 2)
          (j - (maxShape img - img.width) / 2) := by
    intro c i j h
    show (if (maxShape img - img.height) / 2 ≤ i ∧
             i < (maxShape img - img.height) / 2 + img.height ∧
             (maxShape img - img.width) / 2 ≤ j ∧
             j < (maxShape img - img.width) / 2 + img.width
          then (grayscale img).data c (i - (maxShape img - img.height) / 2)
            (j - (maxShape img - img.width) / 2)
          else 0) =
        (grayscale img).data c (i - (maxShape img - img.height) / 2)
          (j - (maxShape img - img.width) / 2)
    rw [if_pos h]
  have hout : ∀ c i j,
      ¬((maxShape img - img.height) / 2 ≤ i ∧ i < (maxShape img - img.height) / 2 + img.height ∧
        (maxShape img - img.width) / 2 ≤ j ∧ j < (maxShape img - img.width) / 2 + img.width) →
      (centerCrop (maxShape img) (grayscale img)).data c i j = 0 := by
    intro c i j h
    show (if (maxShape img - img.height) / 2 ≤ i ∧
             i < (maxShape img - img.height) / 2 + img.height ∧
             (maxShape img - img.width) / 2 ≤ j ∧
             j < (maxShape img - img.width) / 2 + img.width
          then (grayscale img).data c (i - (maxShape img - img.height) / 2)
            (j - (maxShape img - img.width) / 2)
          else 0) = 0
    rw [if_neg h]
  refine ⟨hs, hin, hout, ?_, ?_⟩
  · intro hlt c j
    have hw : maxShape img = img.width := by
      rw [hs]
      exact max_eq_right (le_of_lt hlt)
    apply hout
    rintro ⟨-, h2, -, -⟩
    omega
  · intro hlt c i
    have hh : maxShape img = img.height := by
      rw [hs]
      exact max_eq_left (le_of_lt hlt)
    apply hout
    rintro ⟨-, -, -, h4⟩
    omega

/-- Witness for centerCrop_zero_pad at the 3 x 5 image. -/
theorem centerCrop_zero_pad_witness :
    (centerCrop (maxShape imgRect) (grayscale imgRect)).data 0 (maxShape imgRect - 1) 0 = 0 ∧
    maxShape imgRect = max imgRect.height imgRect.width :=
  ⟨(centerCrop_zero_pad imgRect rfl (by decide) (by decide) (by decide)).2.2.2.1
      (by decide) 0 0,
   (centerCrop_zero_pad imgRect rfl (by decide) (by decide) (by decide)).1⟩

/-- Claim C2 counterexample: in the run with a model source selected but no
image present and Diagnose pressed, the trace shows that the expensive model
load has already happened before the image precondition check fails. -/
theorem model_load_before_checks :
    mainTrace false true true true = [Event.modelLoad, Event.checkImage, Event.errImage] ∧
    Event.modelLoad ∈ mainTrace false true true true := by
  decide

/-- Claim C2 (amended): a forward pass happens only in runs where the image,
the model and the CAM method are all present and Diagnose was pressed, and the
three checks precede the CAM initialisation, the preprocessing and every
forward pass; but the model load is unguarded: it is the first event of every
run with a model source selected, before any precondition check. -/
theorem diagnose_checks_order :
    (∀ imgPresent modelSourceSel camSel diagnosePressed : Bool,
      Event.forwardPass ∈ mainTrace imgPresent modelSourceSel camSel diagnosePressed →
      imgPresent = true ∧ modelSourceSel = true ∧ camSel = true ∧ diagnosePressed = true) ∧
    (∀ imgPresent camSel diagnosePressed : Bool,
      (mainTrace imgPresent true camSel diagnosePressed).head? = some Event.modelLoad) ∧
    mainTrace true true true true =
      [Event.modelLoad, Event.checkImage, Event.checkModel, Event.checkMethod,
       Event.camInit, Event.preprocessEv, Event.forwardPass, Event.forwardPass,
       Event.forwardPass, Event.forwardPass, Event.forwardPass] := by
  refine ⟨by decide, by decide, by decide⟩

/-- Witness for diagnose_checks_order in the all-preconditions run. -/
theorem diagnose_checks_order_witness :
    true = true ∧ true = true ∧ true = true ∧ true = true :=
  diagnose_checks_order.1 true true true true (by decide)

lemma pyStr_map_getD (l : List String) (i : ℕ) (hi : i < l.length) :
    pyStrOptStr ((l.map some).getD i none) = l.getD i "" := by
  induction l generalizing i with
  | nil => cases hi
  | cons a l ih =>
    cases i with
    | zero => rfl
    | succ n => exact ih n (Nat.lt_of_succ_lt_succ hi)

/-- Claim C3 counterexample: with all five confirmations false and all five
comment texts empty, the record field result0_comment carries the empty
string (the str of the text area's empty text), not the literal "None". -/
theorem feedback_empty_comment_not_none :
    ((diagnoseEmit (List.replicate NUM_RESULTS false)
        (List.replicate NUM_RESULTS "")).get_data).getD 1 ("", "") =
      ("result0_comment", "") ∧
    ("" : String) ≠ "None" := by
  refine ⟨rfl, by decide⟩

/-- Claim C3 (amended): every feedback submission over texted comment slots
emits exactly 2 * NUM_RESULTS = 10 fields, named result{i}_confirm and
result{i}_comment for i = 0..4 in that order, whose values are the
stringified confirmation booleans and the comment texts themselves; an empty
comment therefore yields the empty string, while the literal "None" would
only arise from a slot still holding the initial Python None. -/
theorem feedback_record_fields (ok : List Bool) (texts : List String)
    (ht : texts.length = NUM_RESULTS) :
    ((diagnoseEmit ok texts).get_data).length = 2 * NUM_RESULTS ∧
    ((diagnoseEmit ok texts).get_data).map Prod.fst =
      ["result0_confirm", "result0_comment", "result1_confirm", "result1_comment",
       "result2_confirm", "result2_comment", "result3_confirm", "result3_comment",
       "result4_confirm", "result4_comment"] ∧
    ((diagnoseEmit ok texts).get_data).map Prod.snd =
      [pyStrBool (ok.getD 0 false), texts.getD 0 "",
       pyStrBool (ok.getD 1 false), texts.getD 1 "",
       pyStrBool (ok.getD 2 false), texts.getD 2 "",
       pyStrBool (ok.getD 3 false), texts.getD 3 "",
       pyStrBool (ok.getD 4 false), texts.getD 4 ""] := by
  refine ⟨rfl, rfl, ?_⟩
  have h : ((diagnoseEmit ok texts).get_data).map Prod.snd =
      [pyStrBool (ok.getD 0 false), pyStrOptStr ((texts.map some).getD 0 none),
       pyStrBool (ok.getD 1 false), pyStrOptStr ((texts.map some).getD 1 none),
       pyStrBool (ok.getD 2 false), pyStrOptStr ((texts.map some).getD 2 none),
       pyStrBool (ok.getD 3 false), pyStrOptStr ((texts.map some).getD 3 none),
       pyStrBool (ok.getD 4 false), pyStrOptStr ((texts.map some).getD 4 none)] := rfl
  rw [h, pyStr_map_getD texts 0 (by rw [ht]; decide),
      pyStr_map_getD texts 1 (by rw [ht]; decide),
      pyStr_map_getD texts 2 (by rw [ht]; decide),
      pyStr_map_getD texts 3 (by rw [ht]; decide),
      pyStr_map_getD texts 4 (by rw [ht]; decide)]

/-- Witness for feedback_record_fields at the all-false, all-empty batch. -/
theorem feedback_record_fields_witness :
    ((diagnoseEmit (List.replicate 5 false) (List.replicate 5 "")).get_data).length = 10 ∧
    ((diagnoseEmit (List.replicate 5 false) (List.replicate 5 "")).get_data).map Prod.snd =
      ["False", "", "False", "", "False", "", "False", "", "False", ""] := by
  have h := feedback_record_fields (List.replicate 5 false) (List.replicate 5 "") rfl
  exact ⟨h.1, h.2.2⟩

/-- Claim C4: the top-k selection over a score vector of length at least k
returns exactly k indices, pairwise distinct, all in range, ordered with
non-increasing scores and ties in ascending index order; in particular on
scores 0.1, 0.9, 0.9, 0.3 with k = 2 it returns indices 1, 2. -/
theorem topk_select (scores : List ℚ) (k : ℕ) (hk : k ≤ scores.length) :
    (topkIndices scores k).length = k ∧
    (topkIndices scores k).Nodup ∧
    (∀ a ∈ topkIndices scores k, a < scores.length) ∧
    (topkIndices scores k).Pairwise (fun i j =>
      scores.getD j 0 ≤ scores.getD i 0 ∧ (scores.getD i 0 = scores.getD j 0 → i ≤ j)) ∧
    topkIndices [mkRat 1 10, mkRat 9 10, mkRat 9 10, mkRat 3 10] 2 = [1, 2] := by
  have hsort := List.sorted_insertionSort (topkRel scores) (List.range scores.length)
  have hperm := List.perm_insertionSort (topkRel scores) (List.range scores.length)
  have hsub : List.Sublist (topkIndices scores k)
      (List.insertionSort (topkRel scores) (List.range scores.length)) :=
    List.take_sublist k _
  refine ⟨?_, ?_, ?_, ?_, by decide⟩
  · unfold topkIndices
    rw [List.length_take, List.length_insertionSort, List.length_range]
    exact min_eq_left hk
  · exact List.Nodup.sublist hsub (hperm.nodup_iff.mpr (List.nodup_range _))
  · intro a ha
    exact List.mem_range.mp (hperm.mem_iff.mp (hsub.subset ha))
  · have hp : (topkIndices scores k).Pairwise (topkRel scores) :=
      List.Pairwise.sublist hsub hsort
    refine hp.imp ?_
    intro i j hij
    rcases hij with hlt | ⟨heq, hle⟩
    · exact ⟨le_of_lt hlt, fun e => absurd (e ▸ hlt) (lt_irrefl _)⟩
    · exact ⟨le_of_eq heq.symm, fun _ => hle⟩

/-- Witness for topk_select at the tie-breaking example of the spec. -/
theorem topk_select_witness :
    (topkIndices [mkRat 1 10, mkRat 9 10, mkRat 9 10, mkRat 3 10] 2).length = 2 ∧
    topkIndices [mkRat 1 10, mkRat 9 10, mkRat 9 10, mkRat 3 10] 2 = [1, 2] :=
  ⟨(topk_select [mkRat 1 10, mkRat 9 10, mkRat 9 10, mkRat 3 10] 2 (by decide)).1,
   (topk_select [mkRat 1 10, mkRat 9 10, mkRat 9 10, mkRat 3 10] 2 (by decide)).2.2.2.2⟩

/-- Claim C8: when the CAM backend returns exactly one raw map, that map
itself is the saliency map regardless of the fusion operation; only when
several maps are returned is the backend fusion operation applied. -/
theorem cam_fuse_policy {α : Type} (fuse : List α → α) (m : α) (maps : List α)
    (hlen : 2 ≤ maps.length) :
    fuseStep fuse [m] = m ∧ fuseStep fuse maps = fuse maps := by
  refine ⟨rfl, ?_⟩
  match maps, hlen with
  | a :: b :: l, _ => rfl

/-- Witness for cam_fuse_policy with a sum fusion over two maps. -/
theorem cam_fuse_policy_witness :
    fuseStep List.sum [(7 : ℕ)] = 7 ∧
    fuseStep List.sum [(1 : ℕ), 2] = List.sum [1, 2] :=
  cam_fuse_policy List.sum 7 [1, 2] (by decide)

/-- Claim C9: within each result slot the displayed probability and the CAM
score vector come from the same forward pass, and because the embedded model
is a pure function the per-slot recomputation of the forward pass and top-k
selection yields exactly the slots a single shared forward pass would. -/
theorem per_slot_consistency {α : Type} (model : α → List ℚ) (x : α) :
    perSlotResults model x = sharedPassResults model x ∧
    ∀ r ∈ perSlotResults model x, r.2.1 = r.2.2.getD r.1 0 * 100 := by
  refine ⟨rfl, ?_⟩
  intro r hr
  rcases List.mem_map.mp hr with ⟨i, _, rfl⟩
  rfl

/-- Witness for per_slot_consistency at the demonstration model. -/
theorem per_slot_consistency_witness :
    perSlotResults demoModel 0 = sharedPassResults demoModel 0 ∧
    (forwardSlot demoModel 0 0).2.1 =
      (forwardSlot demoModel 0 0).2.2.getD (forwardSlot demoModel 0 0).1 0 * 100 :=
  ⟨(per_slot_consistency demoModel 0).1,
   (per_slot_consistency demoModel 0).2 (forwardSlot demoModel 0 0)
     (List.mem_map.mpr ⟨0, List.mem_range.mpr (by decide), rfl⟩)⟩

end ChestXray
